import Mathlib

set_option maxRecDepth 16384

/-!
Verification of the vssm-tool extension sources against its specification.

Each namespace shallowly embeds one source file of the repository:

* `CursorPos`   — `src/cmd/cursor-position.ts` (`getAdjustedColumn`)
* `GenCfg`      — `src/cmd/generateConfigs.ts` (generic `generateConfig`)
* `WsCfg`       — `generateWorkspaceConfig` (standalone implementation)
* `EcTs`        — `src/cmd/generateEditorConfig.ts` (standalone implementation)
* `Ignore`      — `src/cmd/addToIgnore.ts` (`addToIgnore`)
* `FixedData`   — `src/tree-views/fixed-data-provider.ts` (`FixedDataProvider`)
* `ConfigView`  — `ConfigTreeDataProvider` (config tree view)
* `PkgLink`     — `PackageLinkProvider.provideDocumentLinks`

Host interactions (messages shown, file reads and writes) are recorded as an
ordered list of `Effect`s; host state (workspace folders, configuration
values, file system contents, stat results) is an explicit environment
record. JavaScript strings are modelled by `String` (bytes written to disk
are modelled by the string they decode to), thrown JavaScript values by
`JsErr` (an `Error`-like object carrying `name` and `message` strings, or a
raw non-object value), and `undefined`-able values by `Option`.
-/

/-- A thrown JavaScript value: either an object with string `name` and
`message` properties (an `Error` instance), or a raw non-object value
(anything can be thrown in JavaScript). -/
inductive JsErr where
  | errObj (name : String) (msg : String)
  | raw (s : String)
deriving DecidableEq, Repr

/-- `vscode.FileType` of a successful `workspace.fs.stat` call. -/
inductive VFileType where
  | file
  | directory
  | symbolicLink
  | unknown
deriving DecidableEq, Repr

/-- One observable host interaction performed by a command handler. -/
inductive Effect where
  | showError (msg : String)
  | showInfo (msg : String)
  | fsRead (path : String)
  | fsWrite (path : String) (content : String)
deriving DecidableEq, Repr

/-- Whether an effect is a file write. -/
def Effect.isWrite : Effect → Bool
  | .fsWrite _ _ => true
  | _ => false

/-- Whether an effect is an error message. -/
def Effect.isShowError : Effect → Bool
  | .showError _ => true
  | _ => false

/-- JavaScript `a || b` on an optional object value (`undefined` is falsy,
any object is truthy). -/
def jsOrOpt (a b : Option String) : Option String :=
  match a with
  | some s => some s
  | none => b

/-- JavaScript `s || d` where `s` is an optional string setting: `undefined`
and the empty string are falsy. -/
def jsOrStr (s : Option String) (d : String) : String :=
  match s with
  | some v => if v = "" then d else v
  | none => d

/-- JavaScript `!!b` on an optional boolean setting. -/
def jsBool (b : Option Bool) : Bool := b.getD false

/-- JavaScript truthiness of an optional string (`undefined` and `""` are
falsy). -/
def jsTruthy (s : Option String) : Bool :=
  match s with
  | some v => v ≠ ""
  | none => false

/-- `String(err)` / `err.message` as the generic handler of
`generateConfigs.ts` renders a caught value (`err instanceof Error ?
err.message : String(err)`). -/
def JsErr.toShownMessage : JsErr → String
  | .errObj _ m => m
  | .raw s => s

/-- Whether a caught value passes `err instanceof Error && err.name ===
'EntryNotFound (FileSystemError)'` (`generateConfigs.ts`). -/
def JsErr.isEntryNotFound : JsErr → Bool
  | .errObj n _ => n = "EntryNotFound (FileSystemError)"
  | .raw _ => false

/-- Whether a caught value passes the standalone files' guard `typeof err ===
'object' && err !== null && 'name' in err && 'message' in err && typeof
err.message === 'string'`. -/
def JsErr.hasStringMessage : JsErr → Bool
  | .errObj _ _ => true
  | .raw _ => false

namespace CursorPos

/-- `line.text.charAt(i)`: the i-th character of the line, `none` when the
index is past the end (JavaScript returns `""` there, which compares unequal
to `'\t'`). -/
def charAt (line : List Char) (i : Nat) : Option Char := line.get? i

/-- `(editor.options.tabSize as number) || 4`: a zero (falsy) tab size falls
back to 4. -/
def effTabSize (tabSize : Nat) : Nat := if tabSize = 0 then 4 else tabSize

/-- One iteration of the loop body of `getAdjustedColumn`
(`cursor-position.ts` lines 13–20): a tab advances the column by
`tabSize - (column % tabSize)`, any other character (or a position past the
end of the line) advances it by one. -/
def adjStep (line : List Char) (tabSize : Nat) (column : Nat) (i : Nat) : Nat :=
  if charAt line i = some '\t' then
    column + (effTabSize tabSize - column % effTabSize tabSize)
  else
    column + 1

/-- The loop of `getAdjustedColumn`: `i` is the current index, the second
argument counts the remaining iterations, the third is the running column. -/
def adjGo (line : List Char) (tabSize : Nat) : Nat → Nat → Nat → Nat
  | _, 0, column => column
  | i, k + 1, column => adjGo line tabSize (i + 1) k (adjStep line tabSize column i)

/-- `getAdjustedColumn(editor, position)` from `src/cmd/cursor-position.ts`:
the loop runs for `i = 0 .. position.character - 1` over the line's text,
starting from column 0. -/
def getAdjustedColumn (line : List Char) (character : Nat) (tabSize : Nat) : Nat :=
  adjGo line tabSize 0 character 0

end CursorPos

/-- `/^default$/i.test(template)`: ASCII case-insensitive comparison of the
`template` setting against the word `default`. -/
def isDefaultName (t : String) : Bool :=
  t.toList.map Char.toLower = "default".toList

/-- The template-path selection shared by every generator (`generateConfigs.ts`
lines 96–110 and the standalone generators): a truthy custom template path is
probed with `readFile` and used if readable; otherwise (and when no custom
path is configured) the `template` setting is used, with the value `default`
(case-insensitively) standing for the extension's bundled template. -/
def chooseTemplatePath (readFileRes : String → Except JsErr String)
    (custom : Option String) (template defaultPath : String) : String :=
  let fallback := if isDefaultName template then defaultPath else template
  if jsTruthy custom then
    match readFileRes (custom.getD "") with
    | .ok _ => custom.getD ""
    | .error _ => fallback
  else fallback

namespace GenCfg

/-- The `editor`, `files` and `generateEditorConfig` settings read by
`GenerateEditorConfigCommand.generateAutoContent`, plus `require('os').EOL`. -/
structure EditorSettings where
  insertSpaces : Option Bool
  tabSize : Option Nat
  eol : Option String
  encoding : Option String
  trimTrailingWhitespace : Option Bool
  insertFinalNewline : Option Bool
  generateAuto : Option Bool
  osEOL : String

/-- The `generate<TemplateName>` configuration section
(`customTemplatePath` and `template` keys). -/
structure HostConfig where
  customTemplatePath : Option String
  template : Option String

/-- The host state a generator run observes: the `uri` command argument, the
first workspace folder, the `stat` outcome at the target path, the file
system visible to `readFile`, the configuration section, the extension's
install directory (for `resolve(__dirname, '..', …)`), the editor settings,
and the outcome of `workspace.fs.writeFile`. -/
structure GenEnv where
  uriArg : Option String
  workspaceFolder : Option String
  statTarget : Except JsErr VFileType
  readFileRes : String → Except JsErr String
  conf : HostConfig
  extensionDir : String
  editorSettings : EditorSettings
  writeRes : Except JsErr Unit

/-- The `GenerateCommand` record of `generateConfigs.ts`. -/
structure GenCommand where
  fileName : String
  fileNameGenerator : Option (String → String)
  commandName : String
  menuTitle : String
  templateName : String
  defaultTemplatePath : String
  generateAutoContent : Option (EditorSettings → Except JsErr String)

/-- The `eolMap` of `generateAutoContent`: CRLF and LF map to their
EditorConfig names, anything else is `undefined` and the setting line is
skipped. -/
def eolMapLookup (k : String) : Option String :=
  if k = "\r\n" then some "crlf" else if k = "\n" then some "lf" else none

/-- The `encodingMap` of `generateAutoContent`. -/
def encodingMapLookup : Option String → Option String
  | some "iso88591" => some "latin1"
  | some "utf8" => some "utf-8"
  | some "utf8bom" => some "utf-8-bom"
  | some "utf16be" => some "utf-16-be"
  | some "utf16le" => some "utf-16-le"
  | _ => none

/-- `eolKey`: `files.get('eol') || 'auto'`, with `'auto'` replaced by the
operating system's EOL. -/
def ecEolKey (s : EditorSettings) : String :=
  let e := jsOrStr s.eol "auto"
  if e = "auto" then s.osEOL else e

/-- JavaScript template-literal rendering of a boolean value. -/
def boolStr (b : Bool) : String := if b then "true" else "false"

/-- The `settingsLines` array built by
`GenerateEditorConfigCommand.generateAutoContent` (`generateConfigs.ts`
lines 186–237): the fixed header followed by one `key = value` line per
defined setting, with a final empty line when `insert_final_newline` is
true. -/
def ecSettingsLines (s : EditorSettings) : List String :=
  let base := ["# EditorConfig is awesome: https://EditorConfig.org", "",
               "# top-most EditorConfig file", "root = true", "", "[*]"]
  let l1 := base ++ ["indent_style = " ++ (if jsBool s.insertSpaces then "space" else "tab")]
  let l2 := l1 ++ (match s.tabSize with
    | some ts => ["indent_size = " ++ toString ts]
    | none => [])
  let l3 := l2 ++ (match eolMapLookup (ecEolKey s) with
    | some v => ["end_of_line = " ++ v]
    | none => [])
  let l4 := l3 ++ (match encodingMapLookup s.encoding with
    | some v => ["charset = " ++ v]
    | none => [])
  let l5 := l4 ++ ["trim_trailing_whitespace = " ++ boolStr (jsBool s.trimTrailingWhitespace)]
  let ifn := jsBool s.insertFinalNewline
  let l6 := l5 ++ ["insert_final_newline = " ++ boolStr ifn]
  if ifn then l6 ++ [""] else l6

/-- `GenerateEditorConfigCommand.generateAutoContent`: the empty buffer when
`generateEditorConfig.generateAuto` is falsy, otherwise the settings lines
joined with `eolKey`. -/
def ecAutoContent (s : EditorSettings) : String :=
  if jsBool s.generateAuto = false then ""
  else String.intercalate (ecEolKey s) (ecSettingsLines s)

/-- `uri.path.split('/').filter(Boolean).pop() || 'workspace'`. -/
def folderNameOf (path : String) : String :=
  ((((path.splitOn "/").filter (fun s => s != "")).getLast?).getD "workspace")

/-- The `GenerateClangFormatCommand` record (`generateConfigs.ts`). -/
def GenerateClangFormatCommand : GenCommand :=
  { fileName := ".clang-format"
    fileNameGenerator := none
    commandName := "vssm-tool.generateClangFormat"
    menuTitle := "Generate .clang-format"
    templateName := "ClangFormat"
    defaultTemplatePath := "DefaultTemplate.clang-format"
    generateAutoContent := none }

/-- The `GenerateWorkspaceConfigCommand` record (`generateConfigs.ts`). -/
def GenerateWorkspaceConfigCommand : GenCommand :=
  { fileName := ".code-workspace"
    fileNameGenerator := some (fun uri => folderNameOf uri ++ ".code-workspace")
    commandName := "vssm-tool.generateWorkspaceConfig"
    menuTitle := "Generate .code-workspace"
    templateName := "WorkspaceConfig"
    defaultTemplatePath := "DefaultTemplate.code-workspace"
    generateAutoContent := none }

/-- The `GenerateEditorConfigCommand` record (`generateConfigs.ts`): its
`generateAutoContent` never throws, it resolves with the buffer built by
`ecAutoContent`. -/
def GenerateEditorConfigCommand : GenCommand :=
  { fileName := ".editorconfig"
    fileNameGenerator := none
    commandName := "vssm-tool.generateEditorConfig"
    menuTitle := "Generate .editorconfig"
    templateName := "EditorConfig"
    defaultTemplatePath := "DefaultTemplate.editorconfig"
    generateAutoContent := some (fun s => Except.ok (ecAutoContent s)) }

/-- The file name the generator uses: `config.fileNameGenerator ?
config.fileNameGenerator(currentUri) : config.fileName`. -/
def fileNameFor (cfg : GenCommand) (currentUri : String) : String :=
  match cfg.fileNameGenerator with
  | some g => g currentUri
  | none => cfg.fileName

/-- The target URI `Uri.parse(currentUri.toString() + '/' + fileName)`. -/
def targetUri (cfg : GenCommand) (currentUri : String) : String :=
  currentUri ++ "/" ++ fileNameFor cfg currentUri

/-- The template path the template branch ends up reading, per the selection
logic of `generateConfigs.ts` lines 96–110. -/
def selectedTemplatePath (env : GenEnv) (cfg : GenCommand) : String :=
  chooseTemplatePath env.readFileRes env.conf.customTemplatePath
    (jsOrStr env.conf.template "default")
    (env.extensionDir ++ "/" ++ cfg.defaultTemplatePath)

/-- The template branch of `writeFile` (`generateConfigs.ts` lines 88–123):
probe a truthy custom template path, read the selected template, write its
bytes to the target, and report any read or write error with
`window.showErrorMessage`. -/
def templateBranch (env : GenEnv) (cfg : GenCommand) (configUri : String) : List Effect :=
  (if jsTruthy env.conf.customTemplatePath then
    [Effect.fsRead (env.conf.customTemplatePath.getD "")]
  else []) ++
  (match env.readFileRes (selectedTemplatePath env cfg) with
   | .error e =>
      [Effect.fsRead (selectedTemplatePath env cfg), Effect.showError e.toShownMessage]
   | .ok buf =>
      [Effect.fsRead (selectedTemplatePath env cfg), Effect.fsWrite configUri buf] ++
        (match env.writeRes with
         | .ok _ => []
         | .error e => [Effect.showError e.toShownMessage]))

/-- The inner `writeFile` of `generateConfig` (`generateConfigs.ts` lines
73–124): when the command has an auto content generator, non-empty generated
content is written directly (a thrown error or a failed write is reported
and stops the run); empty content, or a command with no generator, falls
through to the template branch. -/
def writeFileG (env : GenEnv) (cfg : GenCommand) (configUri : String) : List Effect :=
  match cfg.generateAutoContent with
  | some f =>
      match f env.editorSettings with
      | .error e => [Effect.showError e.toShownMessage]
      | .ok content =>
          if content.length > 0 then
            Effect.fsWrite configUri content ::
              (match env.writeRes with
               | .ok _ => []
               | .error e => [Effect.showError e.toShownMessage])
          else templateBranch env cfg configUri
  | none => templateBranch env cfg configUri

/-- `generateConfig(uri, config)` (`generateConfigs.ts` lines 36–125): fall
back to the first workspace folder when no `uri` argument is given, refuse
when neither exists, refuse when the target path already stats as a file,
write when the stat fails with `EntryNotFound (FileSystemError)`, and report
any other stat error. When the stat succeeds with a non-file type the
function falls off the end and does nothing. -/
def generateConfig (env : GenEnv) (cfg : GenCommand) : List Effect :=
  match jsOrOpt env.uriArg env.workspaceFolder with
  | none => [Effect.showError "Workspace doesn't contain any folders."]
  | some currentUri =>
      let fileName := fileNameFor cfg currentUri
      let configUri := currentUri ++ "/" ++ fileName
      match env.statTarget with
      | .ok stats =>
          if stats = VFileType.file then
            [Effect.showError ("A " ++ fileName ++ " file already exists in this workspace.")]
          else []
      | .error err =>
          if err.isEntryNotFound then writeFileG env cfg configUri
          else [Effect.showError err.toShownMessage]

end GenCfg

namespace WsCfg

/-- The template path `generateWorkspaceConfig`'s `writeFile` reads
(standalone implementation, same selection logic as the generic one with the
bundled `DefaultTemplate.code-workspace`). -/
def wsSelectedTemplatePath (env : GenCfg.GenEnv) : String :=
  chooseTemplatePath env.readFileRes env.conf.customTemplatePath
    (jsOrStr env.conf.template "default")
    (env.extensionDir ++ "/" ++ "DefaultTemplate.code-workspace")

/-- The inner `writeFile` of the standalone `generateWorkspaceConfig`: like
the generic template branch, but a caught value without a string `message`
property fails its guard and is silently swallowed (the function just
returns). -/
def wsWriteFile (env : GenCfg.GenEnv) (target : String) : List Effect :=
  (if jsTruthy env.conf.customTemplatePath then
    [Effect.fsRead (env.conf.customTemplatePath.getD "")]
  else []) ++
  (match env.readFileRes (wsSelectedTemplatePath env) with
   | .error e =>
      Effect.fsRead (wsSelectedTemplatePath env) ::
        (if e.hasStringMessage then [Effect.showError e.toShownMessage] else [])
   | .ok buf =>
      [Effect.fsRead (wsSelectedTemplatePath env), Effect.fsWrite target buf] ++
        (match env.writeRes with
         | .ok _ => []
         | .error e =>
            if e.hasStringMessage then [Effect.showError e.toShownMessage] else []))

/-- `generateWorkspaceConfig(uri)` (standalone implementation): the target
file name is derived from the folder name of the current URI; the stat
guard accepts any caught object with string `name` and `message` properties
and dispatches on the name, and a caught value failing the guard is
silently swallowed. The model identifies a URI with its path string. -/
def generateWorkspaceConfig (env : GenCfg.GenEnv) : List Effect :=
  match jsOrOpt env.uriArg env.workspaceFolder with
  | none => [Effect.showError "Workspace doesn't contain any folders."]
  | some currentUri =>
      let folderName := GenCfg.folderNameOf currentUri
      let target := currentUri ++ "/" ++ folderName ++ ".code-workspace"
      match env.statTarget with
      | .ok stats =>
          if stats = VFileType.file then
            [Effect.showError ("A " ++ folderName ++ ".code-workspace file already exists in this workspace.")]
          else []
      | .error e =>
          match e with
          | .errObj name msg =>
              if name = "EntryNotFound (FileSystemError)" then wsWriteFile env target
              else [Effect.showError msg]
          | .raw _ => []

end WsCfg

namespace GenCfg

/-- Editor settings with `generateEditorConfig.generateAuto = true`, spaces
indentation, tab size 4, LF line endings and UTF-8 encoding. -/
def autoSettings : EditorSettings :=
  { insertSpaces := some true
    tabSize := some 4
    eol := some "\n"
    encoding := some "utf8"
    trimTrailingWhitespace := some true
    insertFinalNewline := some true
    generateAuto := some true
    osEOL := "\n" }

/-- `autoSettings` with auto generation disabled. -/
def noAutoSettings : EditorSettings :=
  { autoSettings with generateAuto := some false }

/-- A host state for the `.editorconfig` generator: no explicit `uri`
argument's target conflict, the target path does not exist, no custom
template is configured, only the bundled default template is readable (with
content `"TPL"`), and auto generation is enabled. -/
def env0 : GenEnv :=
  { uriArg := some "file:///ws"
    workspaceFolder := none
    statTarget := Except.error (JsErr.errObj "EntryNotFound (FileSystemError)" "target not found")
    readFileRes := fun p =>
      if p = "/ext/DefaultTemplate.editorconfig" then Except.ok "TPL"
      else Except.error (JsErr.errObj "Error" "ENOENT: no such file or directory")
    conf := { customTemplatePath := none, template := none }
    extensionDir := "/ext"
    editorSettings := autoSettings
    writeRes := Except.ok () }

/-- A host state for the `.clang-format` generator: the target path does not
exist and only the bundled default template is readable (content
`"CLANG"`). -/
def env1 : GenEnv :=
  { uriArg := some "file:///ws"
    workspaceFolder := none
    statTarget := Except.error (JsErr.errObj "EntryNotFound (FileSystemError)" "target not found")
    readFileRes := fun p =>
      if p = "/ext/DefaultTemplate.clang-format" then Except.ok "CLANG"
      else Except.error (JsErr.errObj "Error" "ENOENT: no such file or directory")
    conf := { customTemplatePath := none, template := none }
    extensionDir := "/ext"
    editorSettings := noAutoSettings
    writeRes := Except.ok () }

/-- A host state where the target path already exists as a file. -/
def env2 : GenEnv :=
  { env1 with statTarget := Except.ok VFileType.file }

/-- A host state with no `uri` argument and no workspace folder. -/
def env3 : GenEnv :=
  { env1 with uriArg := none, workspaceFolder := none }

end GenCfg

namespace EcTs

/-- The template path the standalone `generateEditorConfig`'s template
branch reads (same selection logic, bundled
`DefaultTemplate.editorconfig`). -/
def ecTsSelectedTemplatePath (env : GenCfg.GenEnv) : String :=
  chooseTemplatePath env.readFileRes env.conf.customTemplatePath
    (jsOrStr env.conf.template "default")
    (env.extensionDir ++ "/" ++ "DefaultTemplate.editorconfig")

/-- The template branch of the standalone `generateEditorConfig`'s
`writeFile` (`generateEditorConfig.ts` lines 60–107): probe a truthy custom
template path, read the selected template, report a read failure carrying a
string message with the `Could not read EditorConfig template file at …`
message. The final `workspace.fs.writeFile` call on line 97 is **not
awaited**: the surrounding `try`/`catch` completes before the write settles,
so a rejected write never reaches the catch and no message can be shown for
it — the model therefore emits the write attempt and nothing else,
whatever `writeRes` is. -/
def ecTsWriteFileTemplate (env : GenCfg.GenEnv) (target : String) : List Effect :=
  (if jsTruthy env.conf.customTemplatePath then
    [Effect.fsRead (env.conf.customTemplatePath.getD "")]
  else []) ++
  (match env.readFileRes (ecTsSelectedTemplatePath env) with
   | .error e =>
      Effect.fsRead (ecTsSelectedTemplatePath env) ::
        (if e.hasStringMessage then
          [Effect.showError
            ("Could not read EditorConfig template file at " ++
              jsOrStr env.conf.template "default" ++
              env.editorSettings.osEOL ++ e.toShownMessage)]
        else [])
   | .ok buf =>
      [Effect.fsRead (ecTsSelectedTemplatePath env), Effect.fsWrite target buf])

/-- The auto branch of the standalone `generateEditorConfig`'s `writeFile`
(`generateEditorConfig.ts` lines 110–175): the settings lines are built
exactly as in the generic command's `generateAutoContent`, the write is
awaited, and a write failure carrying a string message is reported. -/
def ecTsWriteFileAuto (env : GenCfg.GenEnv) (target : String) : List Effect :=
  Effect.fsWrite target
      (String.intercalate (GenCfg.ecEolKey env.editorSettings)
        (GenCfg.ecSettingsLines env.editorSettings)) ::
    (match env.writeRes with
     | .ok _ => []
     | .error e =>
        if e.hasStringMessage then [Effect.showError e.toShownMessage] else [])

/-- The inner `writeFile` of the standalone `generateEditorConfig`: the
template branch when `generateEditorConfig.generateAuto` is falsy, the auto
branch otherwise. -/
def ecTsWriteFile (env : GenCfg.GenEnv) (target : String) : List Effect :=
  if jsBool env.editorSettings.generateAuto = false then
    ecTsWriteFileTemplate env target
  else ecTsWriteFileAuto env target

/-- `generateEditorConfig(uri)` (standalone
`src/cmd/generateEditorConfig.ts`): note the conflict message reads `An
.editorconfig file…`, and a caught stat value without string `name`/
`message` properties is silently swallowed. -/
def generateEditorConfigTs (env : GenCfg.GenEnv) : List Effect :=
  match jsOrOpt env.uriArg env.workspaceFolder with
  | none => [Effect.showError "Workspace doesn't contain any folders."]
  | some currentUri =>
      match env.statTarget with
      | .ok stats =>
          if stats = VFileType.file then
            [Effect.showError "An .editorconfig file already exists in this workspace."]
          else []
      | .error e =>
          match e with
          | .errObj name msg =>
              if name = "EntryNotFound (FileSystemError)" then
                ecTsWriteFile env (currentUri ++ "/.editorconfig")
              else [Effect.showError msg]
          | .raw _ => []

/-- A host state for the standalone `generateEditorConfig`: auto generation
disabled, the target absent, only the bundled default template readable
(content `"TPL"`), and every `workspace.fs.writeFile` call failing with
`EACCES: permission denied`. -/
def env4 : GenCfg.GenEnv :=
  { uriArg := some "file:///ws"
    workspaceFolder := none
    statTarget :=
      Except.error (JsErr.errObj "EntryNotFound (FileSystemError)" "target not found")
    readFileRes := fun p =>
      if p = "/ext/DefaultTemplate.editorconfig" then Except.ok "TPL"
      else Except.error (JsErr.errObj "Error" "ENOENT: no such file or directory")
    conf := { customTemplatePath := none, template := none }
    extensionDir := "/ext"
    editorSettings := GenCfg.noAutoSettings
    writeRes := Except.error (JsErr.errObj "Error" "EACCES: permission denied") }

end EcTs

namespace Ignore

/-- JavaScript `content.split('\n')` on the character list of the ignore
file's content: `''.split('\n')` is `['']`, and every separator opens a new
field. -/
def splitNl : List Char → List (List Char)
  | [] => [[]]
  | c :: cs =>
      if c = '\n' then [] :: splitNl cs
      else
        match splitNl cs with
        | l :: ls => (c :: l) :: ls
        | [] => [[c]]

/-- The ASCII whitespace characters removed by `String.prototype.trim` (the
model restricts JavaScript's whitespace class to ASCII). -/
def isJsWs (c : Char) : Bool :=
  c == ' ' || c == '\t' || c == '\n' || c == '\r' || c == '\x0b' || c == '\x0c'

/-- `line.trim()`. -/
def jsTrim (l : List Char) : List Char :=
  ((l.dropWhile isJsWs).reverse.dropWhile isJsWs).reverse

/-- The predicate of `content.split('\n').filter(line => line.trim())`: a
line is kept iff its trimmed form is non-empty (a non-empty string is
truthy). -/
def keepLine (l : List Char) : Bool := !(jsTrim l).isEmpty

/-- The `lines` array of `addToIgnore` (`addToIgnore.ts` line 43). -/
def ignoreLines (content : List Char) : List (List Char) :=
  (splitNl content).filter keepLine

/-- `content.endsWith('\n')`. -/
def endsWithNl (l : List Char) : Bool := l.getLast? == some '\n'

/-- The `newContent` expression of `addToIgnore` (line 50): the old content,
a separating newline unless the old content is empty or already
newline-terminated, the relative path, and a final newline. -/
def newContentFor (content rel : List Char) : List Char :=
  content ++ (if endsWithNl content || content.isEmpty then [] else ['\n']) ++
    rel ++ ['\n']

/-- The host state one `addToIgnore` run observes: the first workspace
folder's path, the ignore file's content (`none` when reading it fails, in
which case the code proceeds with the empty string), the target's
workspace-relative path, and the outcome of the write. -/
structure IgEnv where
  workspaceRoot : Option String
  fileContent : Option (List Char)
  relativePath : List Char
  writeRes : Except JsErr Unit

/-- `addToIgnore(uri, ignoreFileName)` (`src/cmd/addToIgnore.ts` lines
16–58): the effect list of one run paired with the ignore file's content
after it (`none` when the file still does not exist). A failing write is
reported through the outer catch-all with `Failed to update …` and leaves
the content unchanged. -/
def addToIgnore (env : IgEnv) (ignoreFileName : String) :
    List Effect × Option (List Char) :=
  match env.workspaceRoot with
  | none => ([Effect.showError "No workspace folder found"], env.fileContent)
  | some root =>
      let ignorePath := root ++ "/" ++ ignoreFileName
      let content := env.fileContent.getD []
      if (ignoreLines content).contains env.relativePath then
        ([Effect.fsRead ignorePath,
          Effect.showInfo
            ("\"" ++ String.mk env.relativePath ++ "\" already exists in " ++
              ignoreFileName)],
         env.fileContent)
      else
        match env.writeRes with
        | .ok _ =>
            ([Effect.fsRead ignorePath,
              Effect.fsWrite ignorePath
                (String.mk (newContentFor content env.relativePath)),
              Effect.showInfo
                ("Added \"" ++ String.mk env.relativePath ++ "\" to " ++
                  ignoreFileName)],
             some (newContentFor content env.relativePath))
        | .error e =>
            ([Effect.fsRead ignorePath,
              Effect.fsWrite ignorePath
                (String.mk (newContentFor content env.relativePath)),
              Effect.showError
                ("Failed to update " ++ ignoreFileName ++ ": " ++
                  e.toShownMessage)],
             env.fileContent)

/-- A concrete `addToIgnore` host state: a `.gitignore` holding one
newline-terminated line, the target `dist`, and a succeeding write. -/
def igEnv0 : IgEnv :=
  { workspaceRoot := some "/ws"
    fileContent := some "node_modules\n".toList
    relativePath := "dist".toList
    writeRes := Except.ok () }

end Ignore

namespace FixedData

/-- `vscode.TreeItemCollapsibleState`. -/
inductive CollapsibleState where
  | none
  | collapsed
  | expanded
deriving DecidableEq, Repr

/-- A `FixedDataNode` (`fixed-data-provider.ts` lines 10–43): label,
collapsible state and optional children. The icon paths and tooltip the
constructor also sets are presentation-only and are not modelled. -/
inductive FDNode where
  | mk (label : String) (collapsibleState : CollapsibleState)
      (children : Option (List FDNode))

/-- The node's label. -/
def FDNode.label : FDNode → String
  | .mk l _ _ => l

/-- The node's collapsible state. -/
def FDNode.collapsibleState : FDNode → CollapsibleState
  | .mk _ s _ => s

/-- The node's children array (`undefined` when absent). -/
def FDNode.children : FDNode → Option (List FDNode)
  | .mk _ _ c => c

mutual

/-- `FixedDataProvider.findNodeByLabel` (lines 161–174): first node whose
label matches, searching each node before its own children and the children
before the rest of the list. -/
def findNodeByLabel : List FDNode → String → Option FDNode
  | [], _ => none
  | n :: rest, label =>
      if n.label = label then some n
      else
        match findInChildren n label with
        | some found => some found
        | none => findNodeByLabel rest label

/-- The `if (node.children)` recursion of `findNodeByLabel` into one node's
children. -/
def findInChildren : FDNode → String → Option FDNode
  | FDNode.mk _ _ (some cs), label => findNodeByLabel cs label
  | FDNode.mk _ _ none, _ => none

end

mutual

/-- `FixedDataProvider.replaceNode` (lines 138–153): replace the first node
carrying the label (checking each node before its subtree) and report
whether a replacement happened. The source mutates the children array in
place; the model rebuilds the surrounding node with the updated array. -/
def replaceNode : List FDNode → String → FDNode → List FDNode × Bool
  | [], _, _ => ([], false)
  | n :: rest, label, newNode =>
      if n.label = label then (newNode :: rest, true)
      else
        match replaceInNode n label newNode with
        | (n2, true) => (n2 :: rest, true)
        | (_, false) =>
            match replaceNode rest label newNode with
            | (rest2, b) => (n :: rest2, b)

/-- The recursion of `replaceNode` into one node's children (a node without
children is left unchanged, as `replaceNode` on the fresh empty array
returns false). -/
def replaceInNode : FDNode → String → FDNode → FDNode × Bool
  | FDNode.mk l s (some cs), label, newNode =>
      match replaceNode cs label newNode with
      | (cs2, true) => (FDNode.mk l s (some cs2), true)
      | (_, false) => (FDNode.mk l s (some cs), false)
  | FDNode.mk l s none, _, _ => (FDNode.mk l s none, false)

end

/-- The clock reading `new Date()` supplies to `formatDateTime`: `month` is
0-based as returned by `Date.prototype.getMonth`. -/
structure JsDate where
  year : Nat
  month : Nat
  day : Nat
  hours : Nat
  minutes : Nat
  seconds : Nat
deriving DecidableEq, Repr

/-- `String(n).padStart(2, '0')`. -/
def pad2 (n : Nat) : String :=
  let s := toString n
  if s.length < 2 then "0" ++ s else s

/-- `FixedDataProvider.formatDateTime` (lines 81–89):
`yyyy-mm-dd HH:MM:SS`, with `getMonth() + 1` for the month. -/
def formatDateTime (d : JsDate) : String :=
  toString d.year ++ "-" ++ pad2 (d.month + 1) ++ "-" ++ pad2 d.day ++ " " ++
    pad2 d.hours ++ ":" ++ pad2 d.minutes ++ ":" ++ pad2 d.seconds

/-- `FixedDataProvider.addNewItem` (lines 96–129) acting on the provider's
`data` field: the new item's label is built from the parent label (or
`Item-`) and the formatted current time; with a parent label the parent
found by `findNodeByLabel` is rebuilt as collapsed with the item appended to
its children and substituted by `replaceNode` (nothing happens when the
parent is not found); without one the item is pushed onto the roots. -/
def addNewItem (data : List FDNode) (parentLabel : Option String)
    (now : JsDate) : List FDNode :=
  let timestamp := formatDateTime now
  let newItemLabel :=
    match parentLabel with
    | some pl => pl ++ "-item-" ++ timestamp
    | none => "Item-" ++ timestamp
  let newItem := FDNode.mk newItemLabel CollapsibleState.none Option.none
  match parentLabel with
  | some pl =>
      match findNodeByLabel data pl with
      | some parent =>
          let updatedParent := FDNode.mk parent.label CollapsibleState.collapsed
            (some (parent.children.getD [] ++ [newItem]))
          (replaceNode data parent.label updatedParent).1
      | none => data
  | none => data ++ [newItem]

/-- The fixed sample nodes `getChildren` stores into `this.data` on its
first root call (lines 198–209). -/
def initialData : List FDNode :=
  [FDNode.mk "Category 1" CollapsibleState.collapsed
    (some [FDNode.mk "Item 1.1" CollapsibleState.none none,
           FDNode.mk "Item 1.2" CollapsibleState.none none]),
   FDNode.mk "Category 2" CollapsibleState.collapsed
    (some [FDNode.mk "Item 2.1" CollapsibleState.none none,
           FDNode.mk "Item 2.2" CollapsibleState.none none,
           FDNode.mk "Item 2.3" CollapsibleState.none none]),
   FDNode.mk "Simple Item" CollapsibleState.none none]

/-- `FixedDataProvider.getChildren` (lines 193–216) acting on the provider's
`data` field: the returned nodes paired with the `data` field after the call.
A root call initializes `data` with the fixed sample nodes only when it is
empty and returns the stored list; a child call returns the element's stored
children and leaves `data` alone. -/
def getChildren (data : List FDNode) (element : Option FDNode) :
    List FDNode × List FDNode :=
  match element with
  | none =>
      if data.isEmpty then (initialData, initialData)
      else (data, data)
  | some e => (e.children.getD [], data)

/-- A fixed clock reading used by the concrete runs. -/
def d0 : JsDate :=
  { year := 2025, month := 7, day := 15, hours := 12, minutes := 0, seconds := 0 }

end FixedData

namespace ConfigView

/-- One entry of `packageJson.contributes.configuration.properties` as
`loadConfigFromPackageJson` extracts it: key, `type`, `default` (rendered as
a string) and `description`. -/
structure ConfigProperty where
  key : String
  type : String
  defaultVal : String
  description : String
deriving DecidableEq, Repr

/-- A `ConfigItem` tree node: label, type, default, description and the
group flag (icon, tooltip and command are presentation-only). -/
structure ConfigItem where
  label : String
  type : String
  defaultVal : String
  description : String
  isGroup : Bool
deriving DecidableEq, Repr

/-- JavaScript `key.split('.')` on the key's characters. -/
def splitDot : List Char → List (List Char)
  | [] => [[]]
  | c :: cs =>
      if c = '.' then [] :: splitDot cs
      else
        match splitDot cs with
        | l :: ls => (c :: l) :: ls
        | [] => [[c]]

/-- `key.split('.')[0]`. -/
def groupKey (key : String) : String :=
  String.mk ((splitDot key.toList).headD [])

/-- One step of the grouping loop of `loadConfigFromPackageJson`: append the
property to its group, creating the group at the end on first sight (the
JavaScript `Map` preserves insertion order). -/
def addToGroup (groups : List (String × List ConfigProperty)) (g : String)
    (p : ConfigProperty) : List (String × List ConfigProperty) :=
  match groups with
  | [] => [(g, [p])]
  | (k, ps) :: rest =>
      if k = g then (k, ps ++ [p]) :: rest
      else (k, ps) :: addToGroup rest g p

/-- `ConfigTreeDataProvider.loadConfigFromPackageJson` (lines 289–322): the
`configGroups` map built from the package.json properties, grouped by key
prefix. -/
def loadConfigFromPackageJson (props : List ConfigProperty) :
    List (String × List ConfigProperty) :=
  props.foldl (fun acc p => addToGroup acc (groupKey p.key) p) []

/-- `this.configGroups.get(label)`. -/
def lookupGroup (groups : List (String × List ConfigProperty)) (g : String) :
    Option (List ConfigProperty) :=
  match groups with
  | [] => none
  | (k, ps) :: rest => if k = g then some ps else lookupGroup rest g

/-- `ConfigTreeDataProvider.getChildren` (lines 339–353): group items at the
root, the group's properties under a group item. -/
def cfgGetChildren (groups : List (String × List ConfigProperty))
    (element : Option ConfigItem) : List ConfigItem :=
  match element with
  | some e =>
      ((lookupGroup groups e.label).getD []).map
        (fun p => ConfigItem.mk p.key p.type p.defaultVal p.description false)
  | none => groups.map (fun gp => ConfigItem.mk gp.1 "group" "" "" true)

/-- The provider's state: the `configGroups` field, filled once by the
constructor. -/
structure ProviderState where
  configGroups : List (String × List ConfigProperty)
deriving DecidableEq, Repr

/-- The `ConfigTreeDataProvider` constructor: `loadConfigFromPackageJson`
runs once, against the package.json contents at construction time. -/
def mkConfigProvider (packageJsonProps : List ConfigProperty) : ProviderState :=
  { configGroups := loadConfigFromPackageJson packageJsonProps }

/-- `ConfigTreeDataProvider.refresh` (lines 358–361): fires the change event
and touches no state. -/
def refresh (s : ProviderState) : ProviderState := s

/-- A package.json properties list as seen at construction time. -/
def pjA : List ConfigProperty :=
  [ConfigProperty.mk "alpha.x" "boolean" "false" "first setting"]

/-- The same package.json after an edit the provider never reloads. -/
def pjB : List ConfigProperty :=
  [ConfigProperty.mk "beta.y" "string" "" "second setting"]

end ConfigView

namespace PkgLink

/-- `path.basename` on a POSIX path: the last `/`-separated component. -/
def basename (p : String) : String := ((p.splitOn "/").getLast?).getD ""

/-- A `vscode.DocumentLink`: the range (line, start and end character), the
target path and the tooltip. -/
structure DocLink where
  line : Nat
  startChar : Nat
  endChar : Nat
  target : String
  tooltip : String
deriving DecidableEq, Repr

/-- The host state one `provideDocumentLinks` call observes: the document's
file name and text, whether cancellation was requested on the token, the
workspace folders, and which paths `fs.existsSync` reports present. -/
structure PLEnv where
  fileName : String
  docText : String
  cancelled : Bool
  workspaceFolders : List String
  fsExists : String → Bool

/-- A character of the regular-expression class `\s` (the model covers the
ASCII whitespace characters). -/
def isWsChar (c : Char) : Bool :=
  c == ' ' || c == '\t' || c == '\n' || c == '\r' || c == '\x0b' || c == '\x0c'

/-- One attempt of the regex `/"([^\x22]+)":\s*"([^\x22]+)"/` at the head of the
character list: on success the captured package name and version and the
total length of the matched text (`[^"]+` and `\s*` are forced maximal here,
as the character after each run is fixed). -/
def matchAt : List Char → Option (String × String × Nat)
  | '"' :: rest =>
      match rest.span (fun c => c != '"') with
      | (name, rest2) =>
        if name.isEmpty then none
        else
          match rest2 with
          | '"' :: ':' :: rest3 =>
              match rest3.span isWsChar with
              | (ws, rest4) =>
                match rest4 with
                | '"' :: rest5 =>
                    match rest5.span (fun c => c != '"') with
                    | (ver, rest6) =>
                      if ver.isEmpty then none
                      else
                        match rest6 with
                        | '"' :: _ =>
                            some (String.mk name, String.mk ver,
                              name.length + ver.length + ws.length + 5)
                        | _ => none
                | _ => none
          | _ => none
  | _ => none

/-- The `while ((match = regex.exec(line)) !== null)` loop: every match of
the dependency regex in one line, leftmost first, each search resuming right
after the previous match, paired with its `match.index`. -/
def findMatches (l : List Char) (i : Nat) : List (Nat × String × String) :=
  match l with
  | [] => []
  | c :: cs =>
      match hm : matchAt (c :: cs) with
      | some (n, v, len) =>
          (i, n, v) :: findMatches (List.drop (len - 1) cs) (i + len)
      | none => findMatches cs (i + 1)
termination_by l.length
decreasing_by
  · have := List.length_drop (len - 1) cs
    simp only [List.length_cons]
    omega
  · simp

/-- `haystack.startsWith(needle)` on character lists. -/
def startsWithL : List Char → List Char → Bool
  | _, [] => true
  | [], _ :: _ => false
  | c :: cs, d :: ds => c == d && startsWithL cs ds

/-- JavaScript `haystack.includes(needle)` on character lists. -/
def containsSub (hay needle : List Char) : Bool :=
  match hay with
  | [] => needle.isEmpty
  | _ :: rest => startsWithL hay needle || containsSub rest needle

/-- The upward loop of `PackageLinkProvider.isDependencyLine` over the lines
from the current one back to the top (given here innermost first): a line
containing `"dependencies"` or `"devDependencies"` answers true, otherwise a
line containing `}` stops the search. -/
def depScan : List (List Char) → Bool
  | [] => false
  | l :: rest =>
      if containsSub l "\"dependencies\"".toList ||
          containsSub l "\"devDependencies\"".toList then true
      else if containsSub l ['}'] then false
      else depScan rest

/-- `isDependencyLine(currentLine, allLines, lineIndex)`: the loop starts at
the current line itself and walks up. -/
def isDependencyLine (allLines : List (List Char)) (lineIndex : Nat) : Bool :=
  depScan ((allLines.take (lineIndex + 1)).reverse)

/-- `PackageLinkProvider.getPackagePath` (lines 262–290): throws when there
is no workspace folder; otherwise the package's README path when it exists,
else the package directory (whether or not it exists — the missing-package
branch only logs a warning). -/
def getPackagePath (env : PLEnv) (packageName : String) : Except String String :=
  match env.workspaceFolders with
  | [] => Except.error "No workspace folder found"
  | w :: _ =>
      if env.fsExists (w ++ "/node_modules/" ++ packageName ++ "/README.md") then
        Except.ok (w ++ "/node_modules/" ++ packageName ++ "/README.md")
      else Except.ok (w ++ "/node_modules/" ++ packageName)

/-- The inner `while` body for one line's matches: a link per match on a
dependency line, with the range starting one character past `match.index`
(skipping the opening quote) and spanning the package name; a thrown
`getPackagePath` error propagates out. -/
def linksForMatches (env : PLEnv) (allLines : List (List Char)) (lineIndex : Nat) :
    List (Nat × String × String) → Except String (List DocLink)
  | [] => Except.ok []
  | (idx, name, _ver) :: rest =>
      if isDependencyLine allLines lineIndex then
        match getPackagePath env name with
        | .error e => Except.error e
        | .ok pathTarget =>
            match linksForMatches env allLines lineIndex rest with
            | .error e => Except.error e
            | .ok ls =>
                Except.ok (DocLink.mk lineIndex (idx + 1) (idx + 1 + name.length)
                  pathTarget ("Open " ++ name ++ " 's local link.") :: ls)
      else linksForMatches env allLines lineIndex rest

/-- The outer `for` loop over the document's lines. -/
def scanLines (env : PLEnv) (allLines : List (List Char)) :
    Nat → List (List Char) → Except String (List DocLink)
  | _, [] => Except.ok []
  | lineIndex, l :: rest =>
      match linksForMatches env allLines lineIndex (findMatches l 0) with
      | .error e => Except.error e
      | .ok ls =>
          match scanLines env allLines (lineIndex + 1) rest with
          | .error e => Except.error e
          | .ok more => Except.ok (ls ++ more)

/-- `PackageLinkProvider.provideDocumentLinks` (lines 164–228): documents
not named `package.json` get the empty list at once; then the cancellation
token is consulted, exactly once and before any line is scanned, and a
requested cancellation short-circuits with the empty list; otherwise the
text is split into lines and scanned. -/
def provideDocumentLinks (env : PLEnv) : Except String (List DocLink) :=
  if basename env.fileName ≠ "package.json" then Except.ok []
  else if env.cancelled then Except.ok []
  else
    scanLines env ((env.docText.splitOn "\n").map String.toList) 0
      ((env.docText.splitOn "\n").map String.toList)

/-- A host state whose token has cancellation requested. -/
def plEnv0 : PLEnv :=
  { fileName := "/ws/package.json"
    docText := "\x7b \"dependencies\": \"5.8.3\" \x7d"
    cancelled := true
    workspaceFolders := ["/ws"]
    fsExists := fun _ => false }

end PkgLink

namespace CursorPos

theorem effTabSize_pos (tabSize : Nat) : 0 < effTabSize tabSize := by
  unfold effTabSize
  split
  · omega
  · omega

theorem adjStep_ge_succ (line : List Char) (tabSize : Nat) (column i : Nat) :
    column + 1 ≤ adjStep line tabSize column i := by
  unfold adjStep
  split
  · have h := Nat.mod_lt column (effTabSize_pos tabSize)
    omega
  · omega

theorem adjGo_ge (line : List Char) (tabSize : Nat) :
    ∀ k i column, column + k ≤ adjGo line tabSize i k column := by
  intro k
  induction k with
  | zero => intro i column; simp [adjGo]
  | succ n ih =>
      intro i column
      have h1 := adjStep_ge_succ line tabSize column i
      have h2 := ih (i + 1) (adjStep line tabSize column i)
      calc column + (n + 1) = (column + 1) + n := by omega
        _ ≤ adjStep line tabSize column i + n := by omega
        _ ≤ adjGo line tabSize (i + 1) n (adjStep line tabSize column i) := h2
        _ = adjGo line tabSize i (n + 1) column := rfl

theorem adjGo_no_tab (line : List Char) (tabSize : Nat) :
    ∀ k i column, (∀ j, j < k → charAt line (i + j) ≠ some '\t') →
      adjGo line tabSize i k column = column + k := by
  intro k
  induction k with
  | zero => intro i column _; simp [adjGo]
  | succ n ih =>
      intro i column h
      have hstep : adjStep line tabSize column i = column + 1 := by
        unfold adjStep
        have hi := h 0 (by omega)
        simp only [Nat.add_zero] at hi
        simp [hi]
      have hrest : ∀ j, j < n → charAt line ((i + 1) + j) ≠ some '\t' := by
        intro j hj
        have := h (j + 1) (by omega)
        have harith : i + (j + 1) = (i + 1) + j := by omega
        rw [harith] at this
        exact this
      calc adjGo line tabSize i (n + 1) column
          = adjGo line tabSize (i + 1) n (adjStep line tabSize column i) := rfl
        _ = adjStep line tabSize column i + n := ih (i + 1) _ hrest
        _ = column + (n + 1) := by omega

end CursorPos

/-- C10, counterexample: the claim asserts equality with the cursor index
`n` *exactly* when none of the first `n` characters is a tab, but on the
line `"abc\t"` with `tabSize = 4` and `n = 4` the tab is met at running
column 3 and advances the column by `4 - 3 % 4 = 1`, so the result equals
`n` although the fourth character is a tab. -/
theorem c10_counterexample :
    CursorPos.getAdjustedColumn "abc\t".toList 4 4 = 4 ∧
    CursorPos.charAt "abc\t".toList 3 = some '\t' := by
  decide

/-- C10 (amended): for every line text, cursor index `n` and positive
`tabSize`, `getAdjustedColumn` returns a column that is at least `n`; if
none of the first `n` characters is a tab the result equals `n` (equality
can also occur with tabs, when each tab is met at a column one less than a
multiple of `tabSize`); each tab character advances the running column to
the next multiple of `tabSize`, and every other character advances it by
one. -/
theorem c10_adjusted_column (line : List Char) (n tabSize : Nat) (h : 0 < tabSize) :
    n ≤ CursorPos.getAdjustedColumn line n tabSize ∧
    ((∀ i, i < n → CursorPos.charAt line i ≠ some '\t') →
      CursorPos.getAdjustedColumn line n tabSize = n) ∧
    (∀ column i, CursorPos.charAt line i = some '\t' →
      CursorPos.adjStep line tabSize column i = tabSize * (column / tabSize + 1)) ∧
    (∀ column i, CursorPos.charAt line i ≠ some '\t' →
      CursorPos.adjStep line tabSize column i = column + 1) := by
  have hne : tabSize ≠ 0 := Nat.pos_iff_ne_zero.mp h
  have hts : CursorPos.effTabSize tabSize = tabSize := by
    unfold CursorPos.effTabSize
    rw [if_neg hne]
  refine ⟨?_, ?_, ?_, ?_⟩
  · have := CursorPos.adjGo_ge line tabSize n 0 0
    simpa [CursorPos.getAdjustedColumn] using this
  · intro hnotab
    have := CursorPos.adjGo_no_tab line tabSize n 0 0 (by
      intro j hj
      simpa using hnotab j hj)
    simpa [CursorPos.getAdjustedColumn] using this
  · intro column i hi
    unfold CursorPos.adjStep
    rw [if_pos hi, hts]
    have hq := Nat.div_add_mod column tabSize
    have hr : column % tabSize < tabSize := Nat.mod_lt _ h
    rw [Nat.mul_add, Nat.mul_one]
    generalize hm : tabSize * (column / tabSize) = m at hq ⊢
    omega
  · intro column i hi
    unfold CursorPos.adjStep
    rw [if_neg hi]

theorem c10_adjusted_column_witness :
    0 < 4 ∧
    (2 ≤ CursorPos.getAdjustedColumn "a\tb".toList 2 4 ∧
      ((∀ i, i < 2 → CursorPos.charAt "a\tb".toList i ≠ some '\t') →
        CursorPos.getAdjustedColumn "a\tb".toList 2 4 = 2) ∧
      (∀ column i, CursorPos.charAt "a\tb".toList i = some '\t' →
        CursorPos.adjStep "a\tb".toList 4 column i = 4 * (column / 4 + 1)) ∧
      (∀ column i, CursorPos.charAt "a\tb".toList i ≠ some '\t' →
        CursorPos.adjStep "a\tb".toList 4 column i = column + 1)) :=
  ⟨by decide, c10_adjusted_column "a\tb".toList 2 4 (by decide)⟩

namespace GenCfg

theorem filter_isWrite_checkEffects (custom : Option String) :
    (if jsTruthy custom then [Effect.fsRead (custom.getD "")] else []).filter
      Effect.isWrite = [] := by
  split <;> simp [Effect.isWrite]

theorem templateBranch_filter (env : GenEnv) (cfg : GenCommand) (configUri tpl : String)
    (hread : env.readFileRes (selectedTemplatePath env cfg) = Except.ok tpl) :
    (templateBranch env cfg configUri).filter Effect.isWrite =
      [Effect.fsWrite configUri tpl] := by
  unfold templateBranch
  rw [hread]
  cases hw : env.writeRes with
  | ok _ =>
      simp [List.filter_append, filter_isWrite_checkEffects, Effect.isWrite]
  | error e =>
      simp [List.filter_append, filter_isWrite_checkEffects, Effect.isWrite]

theorem templateBranch_write_mem (env : GenEnv) (cfg : GenCommand) (configUri p c : String)
    (hmem : Effect.fsWrite p c ∈ templateBranch env cfg configUri) :
    ∃ q, env.readFileRes q = Except.ok c := by
  unfold templateBranch at hmem
  cases hr : env.readFileRes (selectedTemplatePath env cfg) with
  | error e =>
      rw [hr] at hmem
      rcases List.mem_append.mp hmem with h | h
      · split at h <;> simp_all
      · simp at h
  | ok buf =>
      rw [hr] at hmem
      rcases List.mem_append.mp hmem with h | h
      · split at h <;> simp_all
      · rcases List.mem_append.mp h with h2 | h2
        · rcases List.mem_cons.mp h2 with h3 | h3
          · simp at h3
          · have hc : c = buf := by
              simp at h3
              exact h3.2
            exact ⟨selectedTemplatePath env cfg, by rw [hr, hc]⟩
        · cases hw : env.writeRes with
          | ok _ => rw [hw] at h2; simp at h2
          | error e => rw [hw] at h2; simp at h2

theorem writeFileG_filter (env : GenEnv) (cfg : GenCommand) (configUri tpl : String)
    (hauto : ∀ f, cfg.generateAutoContent = some f →
      f env.editorSettings = Except.ok "")
    (hread : env.readFileRes (selectedTemplatePath env cfg) = Except.ok tpl) :
    (writeFileG env cfg configUri).filter Effect.isWrite =
      [Effect.fsWrite configUri tpl] := by
  unfold writeFileG
  cases hac : cfg.generateAutoContent with
  | none => exact templateBranch_filter env cfg configUri tpl hread
  | some f =>
      dsimp only
      rw [hauto f hac]
      dsimp only
      rw [if_neg (by decide)]
      exact templateBranch_filter env cfg configUri tpl hread

end GenCfg

/-- C1, counterexample: with `generateEditorConfig.generateAuto = true` and a
non-existing target, the `.editorconfig` generator writes content synthesized
from the editor settings, not the bytes of the selected template file (here
the readable default template, whose content is `"TPL"`). -/
theorem c1_counterexample :
    (GenCfg.generateConfig GenCfg.env0 GenCfg.GenerateEditorConfigCommand).filter
        Effect.isWrite =
      [Effect.fsWrite "file:///ws/.editorconfig" (GenCfg.ecAutoContent GenCfg.autoSettings)] ∧
    GenCfg.env0.readFileRes
        (GenCfg.selectedTemplatePath GenCfg.env0 GenCfg.GenerateEditorConfigCommand) =
      Except.ok "TPL" ∧
    GenCfg.ecAutoContent GenCfg.autoSettings ≠ "TPL" := by
  refine ⟨by rfl, by rfl, by decide⟩

/-- C1 (amended): for every generator command, if the target file does not
exist (the stat fails with `EntryNotFound (FileSystemError)`), the auto
content branch is absent or produces empty content, and the selected
template file (custom template if readable, otherwise the configured or
default template) is readable, then the command's only write puts the
selected template's bytes, unchanged, at the target path. -/
theorem c1_template_write_exact (env : GenCfg.GenEnv) (cfg : GenCfg.GenCommand)
    (u tpl : String) (e : JsErr)
    (hu : jsOrOpt env.uriArg env.workspaceFolder = some u)
    (hstat : env.statTarget = Except.error e)
    (he : e.isEntryNotFound = true)
    (hauto : ∀ f, cfg.generateAutoContent = some f →
      f env.editorSettings = Except.ok "")
    (hread : env.readFileRes (GenCfg.selectedTemplatePath env cfg) = Except.ok tpl) :
    (GenCfg.generateConfig env cfg).filter Effect.isWrite =
      [Effect.fsWrite (GenCfg.targetUri cfg u) tpl] := by
  unfold GenCfg.generateConfig
  rw [hu, hstat]
  simp only [he, if_true]
  exact GenCfg.writeFileG_filter env cfg _ tpl hauto hread

theorem c1_template_write_exact_witness :
    jsOrOpt GenCfg.env1.uriArg GenCfg.env1.workspaceFolder = some "file:///ws" ∧
    GenCfg.env1.statTarget =
      Except.error (JsErr.errObj "EntryNotFound (FileSystemError)" "target not found") ∧
    (JsErr.errObj "EntryNotFound (FileSystemError)" "target not found").isEntryNotFound = true ∧
    (GenCfg.generateConfig GenCfg.env1 GenCfg.GenerateClangFormatCommand).filter
        Effect.isWrite =
      [Effect.fsWrite (GenCfg.targetUri GenCfg.GenerateClangFormatCommand "file:///ws") "CLANG"] :=
  ⟨by rfl, by rfl, by decide,
    c1_template_write_exact GenCfg.env1 GenCfg.GenerateClangFormatCommand
      "file:///ws" "CLANG" (JsErr.errObj "EntryNotFound (FileSystemError)" "target not found")
      (by rfl) (by rfl) (by decide)
      (fun f h => by simp [GenCfg.GenerateClangFormatCommand] at h)
      (by rfl)⟩

namespace GenCfg

theorem writeFileG_write_mem (env : GenEnv) (cfg : GenCommand) (configUri p c : String)
    (hauto : ∀ f, cfg.generateAutoContent = some f →
      f env.editorSettings = Except.ok "")
    (hmem : Effect.fsWrite p c ∈ writeFileG env cfg configUri) :
    ∃ q, env.readFileRes q = Except.ok c := by
  unfold writeFileG at hmem
  cases hac : cfg.generateAutoContent with
  | none =>
      rw [hac] at hmem
      exact templateBranch_write_mem env cfg configUri p c hmem
  | some f =>
      rw [hac] at hmem
      dsimp only at hmem
      rw [hauto f hac] at hmem
      dsimp only at hmem
      rw [if_neg (by decide)] at hmem
      exact templateBranch_write_mem env cfg configUri p c hmem

end GenCfg

/-- C2: for every generator command (the generic `generateConfig` run with
any command record, and the standalone `generateWorkspaceConfig`), if the
target path already stats as a file, the command's only effect is the
conflict error message `A <fileName> file already exists in this
workspace.` — in particular it performs no write, so the existing file's
content is unchanged. -/
theorem c2_existing_file_refusal (env : GenCfg.GenEnv) (cfg : GenCfg.GenCommand)
    (u : String)
    (hu : jsOrOpt env.uriArg env.workspaceFolder = some u)
    (hstat : env.statTarget = Except.ok VFileType.file) :
    (GenCfg.generateConfig env cfg =
      [Effect.showError
        ("A " ++ GenCfg.fileNameFor cfg u ++ " file already exists in this workspace.")] ∧
     WsCfg.generateWorkspaceConfig env =
      [Effect.showError
        ("A " ++ GenCfg.folderNameOf u ++
          ".code-workspace file already exists in this workspace.")]) ∧
    ∀ p c, Effect.fsWrite p c ∉ GenCfg.generateConfig env cfg ∧
      Effect.fsWrite p c ∉ WsCfg.generateWorkspaceConfig env := by
  have h1 : GenCfg.generateConfig env cfg =
      [Effect.showError
        ("A " ++ GenCfg.fileNameFor cfg u ++ " file already exists in this workspace.")] := by
    unfold GenCfg.generateConfig
    rw [hu]
    dsimp only
    rw [hstat]
    simp
  have h2 : WsCfg.generateWorkspaceConfig env =
      [Effect.showError
        ("A " ++ GenCfg.folderNameOf u ++
          ".code-workspace file already exists in this workspace.")] := by
    unfold WsCfg.generateWorkspaceConfig
    rw [hu]
    dsimp only
    rw [hstat]
    simp
  refine ⟨⟨h1, h2⟩, ?_⟩
  intro p c
  rw [h1, h2]
  constructor <;> simp

theorem c2_existing_file_refusal_witness :
    jsOrOpt GenCfg.env2.uriArg GenCfg.env2.workspaceFolder = some "file:///ws" ∧
    GenCfg.env2.statTarget = Except.ok VFileType.file ∧
    ((GenCfg.generateConfig GenCfg.env2 GenCfg.GenerateClangFormatCommand =
        [Effect.showError
          ("A " ++ GenCfg.fileNameFor GenCfg.GenerateClangFormatCommand "file:///ws" ++
            " file already exists in this workspace.")] ∧
      WsCfg.generateWorkspaceConfig GenCfg.env2 =
        [Effect.showError
          ("A " ++ GenCfg.folderNameOf "file:///ws" ++
            ".code-workspace file already exists in this workspace.")]) ∧
     ∀ p c, Effect.fsWrite p c ∉ GenCfg.generateConfig GenCfg.env2 GenCfg.GenerateClangFormatCommand ∧
       Effect.fsWrite p c ∉ WsCfg.generateWorkspaceConfig GenCfg.env2) :=
  ⟨by rfl, by rfl,
    c2_existing_file_refusal GenCfg.env2 GenCfg.GenerateClangFormatCommand "file:///ws"
      (by rfl) (by rfl)⟩

/-- C3, counterexample: with `generateEditorConfig.generateAuto = true` the
`.editorconfig` generator writes content synthesized from the editor and
files settings; in the host state `env0` the written bytes are not the
contents of any readable template file. -/
theorem c3_counterexample :
    Effect.fsWrite "file:///ws/.editorconfig" (GenCfg.ecAutoContent GenCfg.autoSettings) ∈
      GenCfg.generateConfig GenCfg.env0 GenCfg.GenerateEditorConfigCommand ∧
    ∀ q, GenCfg.env0.readFileRes q ≠
      Except.ok (GenCfg.ecAutoContent GenCfg.autoSettings) := by
  constructor
  · decide
  · intro q
    show (if q = "/ext/DefaultTemplate.editorconfig" then Except.ok "TPL"
      else Except.error (JsErr.errObj "Error" "ENOENT: no such file or directory")) ≠
      Except.ok (GenCfg.ecAutoContent GenCfg.autoSettings)
    split
    · intro h
      exact absurd (Except.ok.inj h) (by decide)
    · intro h
      exact Except.noConfusion h

/-- C3 (amended): generated `.clang-format` and `.code-workspace` files are
always copied from a template file, and so is a generated `.editorconfig`
whenever the auto content branch is absent or produces empty content (in
particular whenever `generateEditorConfig.generateAuto` is false): every
write the generic generator performs carries the contents of some file
readable through `readFile`. With `generateAuto = true`, however, the
`.editorconfig` generator writes content computed from editor/files
settings (see the counterexample). -/
theorem c3_template_only_writes (env : GenCfg.GenEnv) (cfg : GenCfg.GenCommand)
    (hauto : ∀ f, cfg.generateAutoContent = some f →
      f env.editorSettings = Except.ok "") :
    ∀ p c, Effect.fsWrite p c ∈ GenCfg.generateConfig env cfg →
      ∃ q, env.readFileRes q = Except.ok c := by
  intro p c hmem
  unfold GenCfg.generateConfig at hmem
  cases hcur : jsOrOpt env.uriArg env.workspaceFolder with
  | none => rw [hcur] at hmem; simp at hmem
  | some u =>
      rw [hcur] at hmem
      dsimp only at hmem
      cases hstat : env.statTarget with
      | ok t =>
          rw [hstat] at hmem
          dsimp only at hmem
          split at hmem <;> simp at hmem
      | error e =>
          rw [hstat] at hmem
          dsimp only at hmem
          split at hmem
          · exact GenCfg.writeFileG_write_mem env cfg _ p c hauto hmem
          · simp at hmem

theorem c3_template_only_writes_witness :
    (∀ f, GenCfg.GenerateClangFormatCommand.generateAutoContent = some f →
      f GenCfg.env1.editorSettings = Except.ok "") ∧
    ∃ q, GenCfg.env1.readFileRes q = Except.ok "CLANG" :=
  ⟨fun f h => by simp [GenCfg.GenerateClangFormatCommand] at h,
   c3_template_only_writes GenCfg.env1 GenCfg.GenerateClangFormatCommand
     (fun f h => by simp [GenCfg.GenerateClangFormatCommand] at h)
     "file:///ws/.clang-format" "CLANG" (by decide)⟩

/-- C8: for every generator command invoked with no `uri` argument while the
workspace contains no folders, the command's only effect is the error
message `Workspace doesn't contain any folders.` — in particular no template
is read and no file is written. Holds for the generic `generateConfig` with
every command record, and for the standalone `generateWorkspaceConfig`. -/
theorem c8_no_workspace_validation (env : GenCfg.GenEnv) (cfg : GenCfg.GenCommand)
    (h1 : env.uriArg = none) (h2 : env.workspaceFolder = none) :
    GenCfg.generateConfig env cfg =
      [Effect.showError "Workspace doesn't contain any folders."] ∧
    WsCfg.generateWorkspaceConfig env =
      [Effect.showError "Workspace doesn't contain any folders."] := by
  constructor
  · unfold GenCfg.generateConfig
    rw [h1, h2]
    rfl
  · unfold WsCfg.generateWorkspaceConfig
    rw [h1, h2]
    rfl

theorem c8_no_workspace_validation_witness :
    GenCfg.env3.uriArg = none ∧ GenCfg.env3.workspaceFolder = none ∧
    (GenCfg.generateConfig GenCfg.env3 GenCfg.GenerateClangFormatCommand =
      [Effect.showError "Workspace doesn't contain any folders."] ∧
     WsCfg.generateWorkspaceConfig GenCfg.env3 =
      [Effect.showError "Workspace doesn't contain any folders."]) :=
  ⟨by rfl, by rfl,
    c8_no_workspace_validation GenCfg.env3 GenCfg.GenerateClangFormatCommand
      (by rfl) (by rfl)⟩

/-- C4: the claim says every failing file operation shows a user-facing
message, and the repository's other handlers follow that pattern — but the
template-branch write of the standalone `generateEditorConfig`
(`generateEditorConfig.ts` line 97) is not awaited inside its `try`/`catch`,
so its rejection never reaches the catch: in the host state `env4`, whose
`workspace.fs.writeFile` fails with `EACCES: permission denied`, the run
performs the read and the failing write and shows no message at all. -/
theorem c4_unawaited_write_swallows_failure :
    EcTs.env4.writeRes =
      Except.error (JsErr.errObj "Error" "EACCES: permission denied") ∧
    EcTs.generateEditorConfigTs EcTs.env4 =
      [Effect.fsRead "/ext/DefaultTemplate.editorconfig",
       Effect.fsWrite "file:///ws/.editorconfig" "TPL"] ∧
    ∀ m, Effect.showError m ∉ EcTs.generateEditorConfigTs EcTs.env4 := by
  refine ⟨rfl, by rfl, ?_⟩
  intro m
  rw [show EcTs.generateEditorConfigTs EcTs.env4 =
    [Effect.fsRead "/ext/DefaultTemplate.editorconfig",
     Effect.fsWrite "file:///ws/.editorconfig" "TPL"] from by rfl]
  simp

/-- C5, counterexample: tree nodes are not constructed fresh on every call.
`FixedDataProvider` keeps its nodes in the `data` field: after `addNewItem`
pushed a node, a later root `getChildren` returns the retained four-node
list, while the underlying fixed source still describes three roots. And
`ConfigTreeDataProvider` loads `configGroups` from package.json once, in its
constructor: after the underlying package.json changes from `pjA` to `pjB`
and a refresh, `getChildren` still answers from the groups loaded at
construction, which differ from what recomputing from `pjB` would give. -/
theorem c5_counterexample :
    ((FixedData.getChildren
        (FixedData.addNewItem FixedData.initialData none FixedData.d0) none).1.map
       FixedData.FDNode.label =
     ["Category 1", "Category 2", "Simple Item", "Item-2025-08-15 12:00:00"]) ∧
    (FixedData.initialData.map FixedData.FDNode.label =
     ["Category 1", "Category 2", "Simple Item"]) ∧
    (ConfigView.cfgGetChildren
        (ConfigView.refresh (ConfigView.mkConfigProvider ConfigView.pjA)).configGroups
        none ≠
     ConfigView.cfgGetChildren
        (ConfigView.mkConfigProvider ConfigView.pjB).configGroups none) := by
  refine ⟨by rfl, by rfl, by decide⟩

/-- C5 (amended): both cited providers retain state between calls rather
than recomputing it. `FixedDataProvider.getChildren` returns the stored
`data` field unchanged whenever it is non-empty (initializing it only once,
when empty) and a child call reads the element's stored children; and
`ConfigTreeDataProvider`'s `refresh` leaves the `configGroups` loaded at
construction untouched. -/
theorem c5_retained_state (data : List FixedData.FDNode) (e : FixedData.FDNode)
    (pj : List ConfigView.ConfigProperty) (h : data ≠ []) :
    FixedData.getChildren data none = (data, data) ∧
    FixedData.getChildren [] none = (FixedData.initialData, FixedData.initialData) ∧
    FixedData.getChildren data (some e) = (e.children.getD [], data) ∧
    ConfigView.refresh (ConfigView.mkConfigProvider pj) =
      ConfigView.mkConfigProvider pj := by
  refine ⟨?_, rfl, rfl, rfl⟩
  cases data with
  | nil => exact absurd rfl h
  | cons a as => rfl

theorem c5_retained_state_witness :
    FixedData.initialData ≠ [] ∧
    (FixedData.getChildren FixedData.initialData none =
      (FixedData.initialData, FixedData.initialData) ∧
     FixedData.getChildren [] none = (FixedData.initialData, FixedData.initialData) ∧
     FixedData.getChildren FixedData.initialData
        (some (FixedData.FDNode.mk "X" FixedData.CollapsibleState.none none)) =
      ((FixedData.FDNode.mk "X" FixedData.CollapsibleState.none none).children.getD [],
        FixedData.initialData) ∧
     ConfigView.refresh (ConfigView.mkConfigProvider ConfigView.pjA) =
      ConfigView.mkConfigProvider ConfigView.pjA) :=
  ⟨by simp [FixedData.initialData],
   c5_retained_state FixedData.initialData
     (FixedData.FDNode.mk "X" FixedData.CollapsibleState.none none) ConfigView.pjA
     (by simp [FixedData.initialData])⟩

/-- C6: for every document and token state, if cancellation has been
requested then `provideDocumentLinks` returns the empty link list, and the
result does not depend on the document's text — the token is consulted
before any line is scanned (in the embedding the cancellation test stands
between the file-name test and the scan, and nowhere else). -/
theorem c6_cancellation_short_circuit (env : PkgLink.PLEnv)
    (hc : env.cancelled = true) :
    PkgLink.provideDocumentLinks env = Except.ok [] ∧
    ∀ t, PkgLink.provideDocumentLinks { env with docText := t } = Except.ok [] := by
  constructor
  · unfold PkgLink.provideDocumentLinks
    rw [hc]
    split <;> rfl
  · intro t
    unfold PkgLink.provideDocumentLinks
    rw [show ({ env with docText := t } : PkgLink.PLEnv).cancelled = true from hc]
    split <;> rfl

theorem c6_cancellation_short_circuit_witness :
    PkgLink.plEnv0.cancelled = true ∧
    (PkgLink.provideDocumentLinks PkgLink.plEnv0 = Except.ok [] ∧
     ∀ t, PkgLink.provideDocumentLinks { PkgLink.plEnv0 with docText := t } =
       Except.ok []) :=
  ⟨rfl, c6_cancellation_short_circuit PkgLink.plEnv0 rfl⟩

/-- C7: label uniqueness within a parent's children is not enforced: two
`addNewItem` calls with the same parent label and the same clock reading
(two calls within the same second) leave `Category 1` with two children
carrying the identical label `Category 1-item-2025-08-15 12:00:00`. -/
theorem c7_duplicate_labels :
    (FixedData.findNodeByLabel
        (FixedData.addNewItem
          (FixedData.addNewItem FixedData.initialData (some "Category 1") FixedData.d0)
          (some "Category 1") FixedData.d0)
        "Category 1").map
      (fun n => ((FixedData.FDNode.children n).getD []).map FixedData.FDNode.label) =
    some ["Item 1.1", "Item 1.2",
          "Category 1-item-2025-08-15 12:00:00",
          "Category 1-item-2025-08-15 12:00:00"] := by
  rfl

namespace Ignore

theorem splitNl_cons (c : Char) (cs : List Char) :
    splitNl (c :: cs) =
      if c = '\n' then [] :: splitNl cs
      else
        match splitNl cs with
        | l :: ls => (c :: l) :: ls
        | [] => [[c]] := rfl

theorem splitNl_ne_nil (l : List Char) : splitNl l ≠ [] := by
  induction l with
  | nil => simp [splitNl]
  | cons c cs ih =>
      rw [splitNl_cons]
      split
      · simp
      · cases h : splitNl cs with
        | nil => exact absurd h ih
        | cons a as => simp

theorem splitNl_append_nl (xs ys : List Char) :
    splitNl (xs ++ '\n' :: ys) = splitNl xs ++ splitNl ys := by
  induction xs with
  | nil =>
      rw [List.nil_append, splitNl_cons]
      simp [splitNl]
  | cons c cs ih =>
      rw [List.cons_append, splitNl_cons, splitNl_cons c cs]
      by_cases hc : c = '\n'
      · rw [if_pos hc, if_pos hc, ih]
        simp
      · rw [if_neg hc, if_neg hc, ih]
        cases h : splitNl cs with
        | nil => exact absurd h (splitNl_ne_nil cs)
        | cons a as => simp

theorem splitNl_no_nl (p : List Char) (h : '\n' ∉ p) : splitNl p = [p] := by
  induction p with
  | nil => rfl
  | cons c cs ih =>
      rw [splitNl_cons]
      have hc : c ≠ '\n' := fun hh => h (by rw [hh]; exact List.mem_cons_self _ _)
      rw [if_neg hc, ih (fun hm => h (List.mem_cons_of_mem c hm))]

theorem keepLine_nil : keepLine [] = false := rfl

theorem splitNl_append_singleton_nl (rel : List Char) (hnl : '\n' ∉ rel) :
    splitNl (rel ++ ['\n']) = [rel, []] := by
  have h := splitNl_append_nl rel []
  rw [splitNl_no_nl rel hnl] at h
  simpa [splitNl] using h

theorem ignoreLines_newContent (content rel : List Char)
    (hnl : '\n' ∉ rel) (hkeep : keepLine rel = true) :
    ignoreLines (newContentFor content rel) = ignoreLines content ++ [rel] := by
  by_cases hempty : content = []
  · subst hempty
    have h1 : newContentFor [] rel = rel ++ ['\n'] := rfl
    rw [h1]
    unfold ignoreLines
    rw [splitNl_append_singleton_nl rel hnl]
    simp [splitNl, List.filter, hkeep, keepLine_nil]
  · by_cases hend : endsWithNl content = true
    · have hsome : content.getLast? = some '\n' := by
        have := hend
        unfold endsWithNl at this
        exact eq_of_beq this
      obtain ⟨ini, hini⟩ := List.getLast?_eq_some_iff.mp hsome
      subst hini
      have h1 : newContentFor (ini ++ ['\n']) rel =
          ini ++ '\n' :: (rel ++ ['\n']) := by
        unfold newContentFor
        rw [if_pos (by rw [hend]; rfl)]
        simp [List.append_assoc]
      rw [h1]
      unfold ignoreLines
      rw [splitNl_append_nl, splitNl_append_singleton_nl rel hnl,
        show ini ++ ['\n'] = ini ++ '\n' :: [] from rfl, splitNl_append_nl]
      simp [splitNl, List.filter_append, List.filter, hkeep, keepLine_nil]
    · have h1 : newContentFor content rel = content ++ '\n' :: (rel ++ ['\n']) := by
        unfold newContentFor
        rw [if_neg]
        · simp [List.append_assoc]
        · simp only [Bool.or_eq_true]
          rintro (h | h)
          · exact hend h
          · exact hempty (List.isEmpty_iff.mp h)
      rw [h1]
      unfold ignoreLines
      rw [splitNl_append_nl, splitNl_append_singleton_nl rel hnl]
      simp [List.filter_append, List.filter, hkeep, keepLine_nil]

end Ignore

namespace Ignore

theorem addToIgnore_some_root (env : IgEnv) (root name : String)
    (hroot : env.workspaceRoot = some root) :
    addToIgnore env name =
      if (ignoreLines (env.fileContent.getD [])).contains env.relativePath then
        ([Effect.fsRead (root ++ "/" ++ name),
          Effect.showInfo ("\"" ++ String.mk env.relativePath ++
            "\" already exists in " ++ name)],
         env.fileContent)
      else
        match env.writeRes with
        | .ok _ =>
            ([Effect.fsRead (root ++ "/" ++ name),
              Effect.fsWrite (root ++ "/" ++ name)
                (String.mk (newContentFor (env.fileContent.getD []) env.relativePath)),
              Effect.showInfo ("Added \"" ++ String.mk env.relativePath ++
                "\" to " ++ name)],
             some (newContentFor (env.fileContent.getD []) env.relativePath))
        | .error e =>
            ([Effect.fsRead (root ++ "/" ++ name),
              Effect.fsWrite (root ++ "/" ++ name)
                (String.mk (newContentFor (env.fileContent.getD []) env.relativePath)),
              Effect.showError ("Failed to update " ++ name ++ ": " ++
                e.toShownMessage)],
             env.fileContent) := by
  unfold addToIgnore
  rw [hroot]

theorem addToIgnore_snd_already (env : IgEnv) (root name : String)
    (hroot : env.workspaceRoot = some root)
    (hmem : (ignoreLines (env.fileContent.getD [])).contains env.relativePath = true) :
    (addToIgnore env name).2 = env.fileContent := by
  rw [addToIgnore_some_root env root name hroot, if_pos hmem]

theorem addToIgnore_snd_not (env : IgEnv) (root name : String)
    (hroot : env.workspaceRoot = some root)
    (hmem : (ignoreLines (env.fileContent.getD [])).contains env.relativePath = false) :
    (addToIgnore env name).2 =
      match env.writeRes with
      | .ok _ => some (newContentFor (env.fileContent.getD []) env.relativePath)
      | .error _ => env.fileContent := by
  rw [addToIgnore_some_root env root name hroot, if_neg (by rw [hmem]; simp)]
  cases env.writeRes <;> rfl

end Ignore

/-- C9: the add-to-ignore commands are idempotent. (a) When the target's
workspace-relative path already occurs as a non-empty line of the ignore
file, the run only reads the file and shows the `already exists` information
message, leaving the content unchanged. (b) When it does not and the write
succeeds, the new content keeps the previous content as a prefix and its
non-empty lines are exactly the previous non-empty lines followed by the
relative path (the path is appended as one newline-terminated line, after a
separating newline when the old content did not end with one). (c) Running
the command a second time over the content the first run left behind yields
that same content again. -/
theorem c9_idempotent_append (env : Ignore.IgEnv) (root name : String)
    (hroot : env.workspaceRoot = some root)
    (hnl : '\n' ∉ env.relativePath)
    (hkeep : Ignore.keepLine env.relativePath = true) :
    ((Ignore.ignoreLines (env.fileContent.getD [])).contains env.relativePath = true →
      Ignore.addToIgnore env name =
        ([Effect.fsRead (root ++ "/" ++ name),
          Effect.showInfo ("\"" ++ String.mk env.relativePath ++
            "\" already exists in " ++ name)], env.fileContent)) ∧
    ((Ignore.ignoreLines (env.fileContent.getD [])).contains env.relativePath = false →
      env.writeRes = Except.ok () →
      (Ignore.addToIgnore env name).2 =
        some (Ignore.newContentFor (env.fileContent.getD []) env.relativePath) ∧
      List.IsPrefix (env.fileContent.getD [])
        (Ignore.newContentFor (env.fileContent.getD []) env.relativePath) ∧
      Ignore.ignoreLines
          (Ignore.newContentFor (env.fileContent.getD []) env.relativePath) =
        Ignore.ignoreLines (env.fileContent.getD []) ++ [env.relativePath]) ∧
    (Ignore.addToIgnore
        { env with fileContent := (Ignore.addToIgnore env name).2 } name).2 =
      (Ignore.addToIgnore env name).2 := by
  have hbase := Ignore.addToIgnore_some_root env root name hroot
  refine ⟨?_, ?_, ?_⟩
  · intro hmem
    rw [hbase, if_pos hmem]
  · intro hmem hw
    rw [hbase, if_neg (by rw [hmem]; simp), hw]
    refine ⟨rfl, ?_, Ignore.ignoreLines_newContent _ _ hnl hkeep⟩
    have h1 : Ignore.newContentFor (env.fileContent.getD []) env.relativePath =
        env.fileContent.getD [] ++
          ((if Ignore.endsWithNl (env.fileContent.getD []) ||
              (env.fileContent.getD []).isEmpty then [] else ['\n']) ++
            (env.relativePath ++ ['\n'])) := by
      unfold Ignore.newContentFor
      simp [List.append_assoc]
    rw [h1]
    exact List.prefix_append _ _
  · by_cases hmem :
      (Ignore.ignoreLines (env.fileContent.getD [])).contains env.relativePath = true
    · have h1 : (Ignore.addToIgnore env name).2 = env.fileContent := by
        rw [hbase, if_pos hmem]
      rw [h1]
      exact h1
    · have hmem' :
        (Ignore.ignoreLines (env.fileContent.getD [])).contains env.relativePath = false :=
        Bool.eq_false_iff.mpr hmem
      have h1 : (Ignore.addToIgnore env name).2 =
          match env.writeRes with
          | .ok _ =>
              some (Ignore.newContentFor (env.fileContent.getD []) env.relativePath)
          | .error _ => env.fileContent := by
        rw [hbase, if_neg (by rw [hmem']; simp)]
        cases env.writeRes <;> rfl
      rw [h1]
      cases hw : env.writeRes with
      | ok u =>
          have hlines := Ignore.ignoreLines_newContent (env.fileContent.getD [])
            env.relativePath hnl hkeep
          have hmem2 : (Ignore.ignoreLines
              ((some (Ignore.newContentFor (env.fileContent.getD [])
                env.relativePath)).getD [])).contains env.relativePath = true := by
            simp only [Option.getD_some]
            rw [List.elem_iff, hlines]
            exact List.mem_append_right _ (List.mem_singleton.mpr rfl)
          exact Ignore.addToIgnore_snd_already _ root name hroot hmem2
      | error e =>
          exact Ignore.addToIgnore_snd_not _ root name hroot hmem'

theorem c9_idempotent_append_witness :
    Ignore.igEnv0.workspaceRoot = some "/ws" ∧
    '\n' ∉ Ignore.igEnv0.relativePath ∧
    Ignore.keepLine Ignore.igEnv0.relativePath = true ∧
    (((Ignore.ignoreLines (Ignore.igEnv0.fileContent.getD [])).contains
        Ignore.igEnv0.relativePath = true →
      Ignore.addToIgnore Ignore.igEnv0 ".gitignore" =
        ([Effect.fsRead ("/ws" ++ "/" ++ ".gitignore"),
          Effect.showInfo ("\"" ++ String.mk Ignore.igEnv0.relativePath ++
            "\" already exists in " ++ ".gitignore")], Ignore.igEnv0.fileContent)) ∧
     ((Ignore.ignoreLines (Ignore.igEnv0.fileContent.getD [])).contains
        Ignore.igEnv0.relativePath = false →
      Ignore.igEnv0.writeRes = Except.ok () →
      (Ignore.addToIgnore Ignore.igEnv0 ".gitignore").2 =
        some (Ignore.newContentFor (Ignore.igEnv0.fileContent.getD [])
          Ignore.igEnv0.relativePath) ∧
      List.IsPrefix (Ignore.igEnv0.fileContent.getD [])
        (Ignore.newContentFor (Ignore.igEnv0.fileContent.getD [])
          Ignore.igEnv0.relativePath) ∧
      Ignore.ignoreLines (Ignore.newContentFor (Ignore.igEnv0.fileContent.getD [])
          Ignore.igEnv0.relativePath) =
        Ignore.ignoreLines (Ignore.igEnv0.fileContent.getD []) ++
          [Ignore.igEnv0.relativePath]) ∧
     (Ignore.addToIgnore
        { Ignore.igEnv0 with
            fileContent := (Ignore.addToIgnore Ignore.igEnv0 ".gitignore").2 }
        ".gitignore").2 =
      (Ignore.addToIgnore Ignore.igEnv0 ".gitignore").2) :=
  ⟨rfl, by decide, by decide,
   c9_idempotent_append Ignore.igEnv0 "/ws" ".gitignore" rfl (by decide) (by decide)⟩
